import Mathlib

/-!
Shallow embedding of the Severstal metal-rolls warehouse service
(FastAPI + SQLAlchemy + PostgreSQL) and verification of its
natural-language specification.

Modelling conventions:
* timestamps are `Int` (seconds since the Unix epoch, UTC);
* `length`/`weight` and the SQL numeric results are `ℚ`;
* the database is a list of `Roll` rows plus the next primary key;
* a handler is a function `... → DBState → Except PyError α × DBState`,
  mirroring the Python handler bodies together with their
  `try/except SQLAlchemyError/except Exception` wrappers;
* Python exception flow is explicit: `HTTPException` raised inside a
  handler body is an ordinary `Exception`, so the trailing
  `except Exception` clause of each handler catches it and re-raises
  it as a 500 "Unexpected error" (Starlette's `HTTPException.__str__`
  renders as `"{status}: {detail}"`).
-/

namespace Severstal

/-- Errors raised inside a handler body: `HTTPException(status, detail)`
or `SQLAlchemyError(msg)`. -/
inductive PyError where
  | http (status : Nat) (detail : String)
  | db (msg : String)
  deriving Repr, DecidableEq

/-- A row of the `rolls` table (src/models.py, class `Roll`). -/
structure Roll where
  id : Nat
  length : ℚ
  weight : ℚ
  added_date : Int
  removed_date : Option Int
  deriving Repr, DecidableEq

/-- The persisted state: the `rolls` table and the sequence that assigns
the next primary key. -/
structure DBState where
  rolls : List Roll
  nextId : Nat
  deriving Repr, DecidableEq

/-- The two-tier exception wrapper every endpoint of src/routers/rolls.py
ends with:

```
except SQLAlchemyError as e:
    raise HTTPException(status_code=500, detail=f"Database error: {str(e)}")
except Exception as e:
    raise HTTPException(status_code=500, detail=f"Unexpected error: {str(e)}")
```

`HTTPException` is a subclass of `Exception` and not of `SQLAlchemyError`,
so an `HTTPException` raised in the body is caught by the second clause and
re-wrapped; `str(e)` for Starlette's `HTTPException` is
`"{status_code}: {detail}"`. -/
def wrapHandler {α : Type} (body : Except PyError α) : Except PyError α :=
  match body with
  | .ok a => .ok a
  | .error (.db m) => .error (.http 500 ("Database error: " ++ m))
  | .error (.http s d) =>
      .error (.http 500 ("Unexpected error: " ++ toString s ++ ": " ++ d))

/-- `POST /rolls/` (src/routers/rolls.py, `create_roll`).  `now` stands for
`datetime.now(timezone.utc).replace(microsecond=0)` used as the default of
`added_date`.  The body validates `length > 0 and weight > 0`, then inserts
a new row with a fresh primary key and `removed_date = NULL`. -/
def create_roll (length weight : ℚ) (now : Int) (db : DBState) :
    Except PyError Roll × DBState :=
  let body : Except PyError Roll × DBState :=
    if length ≤ 0 ∨ weight ≤ 0 then
      (.error (.http 400 "Length and weight must be positive"), db)
    else
      let newRoll : Roll :=
        { id := db.nextId, length := length, weight := weight,
          added_date := now, removed_date := none }
      (.ok newRoll, { rolls := db.rolls ++ [newRoll], nextId := db.nextId + 1 })
  (wrapHandler body.1, body.2)

/-- `DELETE /rolls/{roll_id}` (src/routers/rolls.py, `delete_roll`).
`db.query(Roll).get(roll_id)` is a primary-key lookup; the body raises 404
when absent, 400 when `removed_date` is already set, and otherwise sets
`removed_date` to the current UTC instant and commits. -/
def delete_roll (roll_id : Nat) (now : Int) (db : DBState) :
    Except PyError Roll × DBState :=
  let body : Except PyError Roll × DBState :=
    match db.rolls.find? (fun r => r.id = roll_id) with
    | none => (.error (.http 404 "Roll not found"), db)
    | some r =>
        if r.removed_date.isSome then
          (.error (.http 400 "Roll already removed"), db)
        else
          let updated := { r with removed_date := some now }
          (.ok updated,
           { db with rolls :=
               db.rolls.map (fun x => if x.id = roll_id then
                 { x with removed_date := some now } else x) })
  (wrapHandler body.1, body.2)

/-- The ten optional query parameters of `GET /rolls/`. -/
structure RollFilters where
  id_start : Option Nat := none
  id_end : Option Nat := none
  length_start : Option ℚ := none
  length_end : Option ℚ := none
  weight_start : Option ℚ := none
  weight_end : Option ℚ := none
  added_start : Option Int := none
  added_end : Option Int := none
  removed_start : Option Int := none
  removed_end : Option Int := none
  deriving Repr, DecidableEq

/-- One conditional `filters.append(...)` of `get_rolls`: the empty list
when the query parameter is absent, a one-predicate list when present. -/
def optFilter {β : Type} (o : Option β) (mk : β → Roll → Bool) :
    List (Roll → Bool) :=
  match o with
  | none => []
  | some v => [mk v]

/-- SQL comparison `rolls.removed_date >= x` under three-valued logic:
a NULL `removed_date` makes the predicate unknown, so the row is
filtered out. -/
def removedGe (x : Int) (r : Roll) : Bool :=
  match r.removed_date with
  | none => false
  | some d => x ≤ d

/-- SQL comparison `rolls.removed_date <= x`; NULL filters the row out. -/
def removedLe (x : Int) (r : Roll) : Bool :=
  match r.removed_date with
  | none => false
  | some d => d ≤ x

/-- The filter list built by `get_rolls`, in the order the source appends
the predicates. -/
def buildFilters (f : RollFilters) : List (Roll → Bool) :=
  optFilter f.id_start (fun v r => v ≤ r.id) ++
  optFilter f.id_end (fun v r => r.id ≤ v) ++
  optFilter f.length_start (fun v r => v ≤ r.length) ++
  optFilter f.length_end (fun v r => r.length ≤ v) ++
  optFilter f.weight_start (fun v r => v ≤ r.weight) ++
  optFilter f.weight_end (fun v r => r.weight ≤ v) ++
  optFilter f.added_start (fun v r => v ≤ r.added_date) ++
  optFilter f.added_end (fun v r => r.added_date ≤ v) ++
  optFilter f.removed_start removedGe ++
  optFilter f.removed_end removedLe

/-- `GET /rolls/` (src/routers/rolls.py, `get_rolls`):
`db.query(Roll).filter(*filters).all()` keeps the rows satisfying every
predicate of the filter list. -/
def get_rolls (f : RollFilters) (db : DBState) :
    Except PyError (List Roll) × DBState :=
  let body : Except PyError (List Roll) × DBState :=
    (.ok (db.rolls.filter (fun r => (buildFilters f).all (fun p => p r))), db)
  (wrapHandler body.1, body.2)

/-- SQL `MIN` over a column: NULL on the empty set, otherwise the least
value. -/
def listMin {α : Type} [LinearOrder α] (l : List α) : Option α :=
  l.foldl (fun acc x =>
    match acc with
    | none => some x
    | some m => some (min m x)) none

/-- SQL `MAX` over a column: NULL on the empty set, otherwise the greatest
value. -/
def listMax {α : Type} [LinearOrder α] (l : List α) : Option α :=
  l.foldl (fun acc x =>
    match acc with
    | none => some x
    | some m => some (max m x)) none

/-- SQL `SUM` over a column: NULL on the empty set. -/
def sqlSum (l : List ℚ) : Option ℚ :=
  if l.isEmpty then none else some l.sum

/-- SQL `AVG` over a column: NULL on the empty set. -/
def sqlAvg (l : List ℚ) : Option ℚ :=
  if l.isEmpty then none else some (l.sum / l.length)

/-- Round to the nearest integer, ties to the even integer: the rounding
mode of Python's built-in `round`. -/
def roundHalfEven (q : ℚ) : ℤ :=
  let f := ⌊q⌋
  let r := q - f
  if r < 1/2 then f
  else if 1/2 < r then f + 1
  else if Even f then f else f + 1

/-- Python `round(x, 2)`. -/
def pyRound2 (q : ℚ) : ℚ := (roundHalfEven (q * 100) : ℚ) / 100

/-- The `presence_condition` of `get_statistics`:
`added_date <= end_date AND (removed_date >= start_date OR removed_date
IS NULL)`. -/
def presence (start_date end_date : Int) (r : Roll) : Bool :=
  r.added_date ≤ end_date &&
    (match r.removed_date with
     | some rd => start_date ≤ rd
     | none => true)

/-- `rolls.removed_date IS NOT NULL` combined with the presence condition:
the filter of the `interval_query`. -/
def intervalQualifies (start_date end_date : Int) (r : Roll) : Bool :=
  r.removed_date.isSome && presence start_date end_date r

/-- Dwell time in seconds, `removed_date - added_date`, on rows where
`removed_date` is not NULL. -/
def dwell (r : Roll) : Int := r.removed_date.getD 0 - r.added_date

/-- `datetime.astimezone(timezone.utc).date()`: the UTC calendar day
(as a day number) of an instant; floors also for instants before the
epoch. -/
def dayOf (t : Int) : Int := Int.fdiv t 86400

/-- `generate_series(start_day, end_day, interval '1 day')`: the calendar
days from `s` to `e` inclusive, ascending (empty when `e < s`). -/
def dayRange (s e : Int) : List Int :=
  (List.range (e - s + 1).toNat).map (fun (i : Nat) => s + (i : Int))

/-- The `LEFT JOIN` condition of the day-series SQL:
`rolls.added_date < (day + interval '1 day') AND (rolls.removed_date >=
day OR rolls.removed_date IS NULL)`, where `day` is midnight UTC of
calendar day `d`. -/
def presentOnDay (r : Roll) (d : Int) : Bool :=
  r.added_date < (d + 1) * 86400 &&
    (match r.removed_date with
     | some rd => d * 86400 ≤ rd
     | none => true)

/-- The day-series query: for every day of the range, the number of rolls
matching the join condition (`COUNT(rolls.id)` is 0 when the left join
matches nothing) and `COALESCE(SUM(rolls.weight), 0)`, ordered by day. -/
def daySeries (rolls : List Roll) (s e : Int) : List (Int × Nat × ℚ) :=
  (dayRange s e).map (fun d =>
    (d, (rolls.filter (fun r => presentOnDay r d)).length,
        ((rolls.filter (fun r => presentOnDay r d)).map Roll.weight).sum))

/-- One step of the running-minimum scan of `get_statistics`:
`if min_v is None or v < min_v: reset list; elif v == min_v: append`. -/
def tieMinStep {α : Type} [LinearOrder α] (acc : Option α × List Int)
    (e : Int × α) : Option α × List Int :=
  match acc with
  | (none, _) => (some e.2, [e.1])
  | (some m, days) =>
      if e.2 < m then (some e.2, [e.1])
      else if e.2 = m then (some m, days ++ [e.1])
      else (some m, days)

/-- One step of the running-maximum scan of `get_statistics`. -/
def tieMaxStep {α : Type} [LinearOrder α] (acc : Option α × List Int)
    (e : Int × α) : Option α × List Int :=
  match acc with
  | (none, _) => (some e.2, [e.1])
  | (some m, days) =>
      if m < e.2 then (some e.2, [e.1])
      else if e.2 = m then (some m, days ++ [e.1])
      else (some m, days)

/-- The left-to-right scan for a minimum followed by
`min(tied_days) if tied_days else None`. -/
def dayMinOf {α : Type} [LinearOrder α] (series : List (Int × α)) :
    Option Int :=
  listMin (series.foldl tieMinStep (none, [])).2

/-- The left-to-right scan for a maximum followed by
`min(tied_days) if tied_days else None`. -/
def dayMaxOf {α : Type} [LinearOrder α] (series : List (Int × α)) :
    Option Int :=
  listMin (series.foldl tieMaxStep (none, [])).2

/-- The response of `GET /rolls/statistics`
(src/schemas.py, `StatisticsResponse`). -/
structure Statistics where
  added_count : Nat
  removed_count : Nat
  avg_length : Option ℚ
  avg_weight : Option ℚ
  min_length : Option ℚ
  max_length : Option ℚ
  min_weight : Option ℚ
  max_weight : Option ℚ
  total_weight : Option ℚ
  max_interval : Option ℚ
  min_interval : Option ℚ
  day_min_count : Option Int
  day_max_count : Option Int
  day_min_weight : Option Int
  day_max_weight : Option Int
  deriving Repr, DecidableEq

/-- `round(interval_query.max_days, 2) if interval_query and
interval_query.max_days else None`: the aggregate row is never `None`, and
`max_days` is falsy exactly when it is NULL or zero. -/
def truthyRound2 (v : Option ℚ) : Option ℚ :=
  match v with
  | none => none
  | some x => if x ≠ 0 then some (pyRound2 x) else none

/-- The body of `GET /rolls/statistics` after validation
(src/routers/rolls.py, `get_statistics`). -/
def statisticsBody (start_date end_date : Int) (db : DBState) : Statistics :=
  let presenceSet := db.rolls.filter (presence start_date end_date)
  let qualifying := db.rolls.filter (intervalQualifies start_date end_date)
  let max_days : Option ℚ :=
    (listMax (qualifying.map dwell)).map (fun (v : Int) => (v : ℚ) / 86400)
  let min_days : Option ℚ :=
    (listMin (qualifying.map dwell)).map (fun (v : Int) => (v : ℚ) / 86400)
  let series := daySeries db.rolls (dayOf start_date) (dayOf end_date)
  { added_count :=
      (db.rolls.filter (fun r =>
        start_date ≤ r.added_date && r.added_date ≤ end_date)).length,
    removed_count :=
      (db.rolls.filter (fun r =>
        match r.removed_date with
        | some rd => start_date ≤ rd && rd ≤ end_date
        | none => false)).length,
    avg_length := sqlAvg (presenceSet.map Roll.length),
    avg_weight := sqlAvg (presenceSet.map Roll.weight),
    min_length := listMin (presenceSet.map Roll.length),
    max_length := listMax (presenceSet.map Roll.length),
    min_weight := listMin (presenceSet.map Roll.weight),
    max_weight := listMax (presenceSet.map Roll.weight),
    total_weight := sqlSum (presenceSet.map Roll.weight),
    max_interval := truthyRound2 max_days,
    min_interval := truthyRound2 min_days,
    day_min_count := dayMinOf (series.map (fun x => (x.1, x.2.1))),
    day_max_count := dayMaxOf (series.map (fun x => (x.1, x.2.1))),
    day_min_weight := dayMinOf (series.map (fun x => (x.1, x.2.2))),
    day_max_weight := dayMaxOf (series.map (fun x => (x.1, x.2.2))) }

/-- `GET /rolls/statistics` (src/routers/rolls.py, `get_statistics`):
validation `start_date > end_date` raises a 400 before any query is run;
the rest of the body is read-only. -/
def get_statistics (start_date end_date : Int) (db : DBState) :
    Except PyError Statistics × DBState :=
  let body : Except PyError Statistics × DBState :=
    if end_date < start_date then
      (.error (.http 400 "Start date must be before end date"), db)
    else
      (.ok (statisticsBody start_date end_date db), db)
  (wrapHandler body.1, body.2)

/-- Errors `ConfigParser.get` can raise: `NoSectionError` when the section
is absent (also when `config.ini` does not exist, since `config.read`
silently reads nothing), `NoOptionError` when the key is absent from the
section. -/
inductive CfgError where
  | noSection (s : String)
  | noOption (s k : String)
  deriving Repr, DecidableEq

/-- The contents of `config.ini` after `config.read`: section name →
options.  A missing file is the empty list. -/
abbrev IniFile := List (String × List (String × String))

/-- `ConfigParser.get(section, key)`. -/
def configGet (file : IniFile) (sec key : String) : Except CfgError String :=
  match List.lookup sec file with
  | none => .error (.noSection sec)
  | some opts =>
      match List.lookup key opts with
      | none => .error (.noOption sec key)
      | some v => .ok v

/-- `os.getenv(key, default)`: the environment value when the variable is
set, else the default. -/
def getenv (env : List (String × String)) (key default : String) : String :=
  match List.lookup key env with
  | some v => v
  | none => default

/-- The resolved database configuration (src/config.py). -/
structure DbConfig where
  host : String
  database : String
  username : String
  password : String
  deriving Repr, DecidableEq

/-- src/config.py, `get_db_config`.  Each dict entry is
`os.getenv("X", config.get("database", "X"))`: Python evaluates the
default argument `config.get(...)` eagerly, before `os.getenv` looks at
the environment, so a missing file section or key raises even when the
environment variable is set.  Entries are evaluated in source order. -/
def get_db_config (env : List (String × String)) (file : IniFile) :
    Except CfgError DbConfig :=
  match configGet file "database" "DB_HOST" with
  | .error err => .error err
  | .ok hostD =>
    let host := getenv env "DB_HOST" hostD
    match configGet file "database" "DB_NAME" with
    | .error err => .error err
    | .ok nameD =>
      let database := getenv env "DB_NAME" nameD
      match configGet file "database" "DB_USER" with
      | .error err => .error err
      | .ok userD =>
        let username := getenv env "DB_USER" userD
        match configGet file "database" "DB_PASSWORD" with
        | .error err => .error err
        | .ok passD =>
          let password := getenv env "DB_PASSWORD" passD
          .ok { host := host, database := database,
                username := username, password := password }

/-! ### Helper lemmas about the SQL aggregate embeddings -/

lemma listMin_some_foldl {α : Type} [LinearOrder α] (m : α) (l : List α) :
    l.foldl (fun acc x =>
      match acc with
      | none => some x
      | some m => some (min m x)) (some m) = some (l.foldl min m) := by
  induction l generalizing m with
  | nil => rfl
  | cons y ys ih => simpa using ih (min m y)

lemma listMax_some_foldl {α : Type} [LinearOrder α] (m : α) (l : List α) :
    l.foldl (fun acc x =>
      match acc with
      | none => some x
      | some m => some (max m x)) (some m) = some (l.foldl max m) := by
  induction l generalizing m with
  | nil => rfl
  | cons y ys ih => simpa using ih (max m y)

lemma listMin_eq_min? {α : Type} [LinearOrder α] (l : List α) :
    listMin l = l.min? := by
  cases l with
  | nil => rfl
  | cons x xs => simp [listMin, List.min?, listMin_some_foldl]

lemma listMax_eq_max? {α : Type} [LinearOrder α] (l : List α) :
    listMax l = l.max? := by
  cases l with
  | nil => rfl
  | cons x xs => simp [listMax, List.max?, listMax_some_foldl]

lemma listMin_eq_some_iff {α : Type} [LinearOrder α] {l : List α} {m : α} :
    listMin l = some m ↔ m ∈ l ∧ ∀ b ∈ l, m ≤ b := by
  rw [listMin_eq_min?]
  have anti : Std.Antisymm ((· : α) ≤ ·) := ⟨fun h h' => le_antisymm h h'⟩
  exact List.min?_eq_some_iff le_refl (fun a b => min_choice a b)
    (fun a b c => le_min_iff)

lemma listMax_eq_some_iff {α : Type} [LinearOrder α] {l : List α} {m : α} :
    listMax l = some m ↔ m ∈ l ∧ ∀ b ∈ l, b ≤ m := by
  rw [listMax_eq_max?]
  have anti : Std.Antisymm ((· : α) ≤ ·) := ⟨fun h h' => le_antisymm h h'⟩
  exact List.max?_eq_some_iff le_refl (fun a b => max_choice a b)
    (fun a b c => max_le_iff)

lemma listMin_eq_none_iff {α : Type} [LinearOrder α] {l : List α} :
    listMin l = none ↔ l = [] := by
  rw [listMin_eq_min?]; exact List.min?_eq_none_iff

lemma listMax_eq_none_iff {α : Type} [LinearOrder α] {l : List α} :
    listMax l = none ↔ l = [] := by
  rw [listMax_eq_max?]; exact List.max?_eq_none_iff

lemma listMin_append_singleton {α : Type} [LinearOrder α] (l : List α)
    (x : α) :
    listMin (l ++ [x]) =
      match listMin l with
      | none => some x
      | some m => some (min m x) := by
  unfold listMin
  rw [List.foldl_append]
  cases h : l.foldl (fun acc x =>
      match acc with
      | none => some x
      | some m => some (min m x)) none <;> simp

lemma listMax_append_singleton {α : Type} [LinearOrder α] (l : List α)
    (x : α) :
    listMax (l ++ [x]) =
      match listMax l with
      | none => some x
      | some m => some (max m x) := by
  unfold listMax
  rw [List.foldl_append]
  cases h : l.foldl (fun acc x =>
      match acc with
      | none => some x
      | some m => some (max m x)) none <;> simp

/-! ### The tie-scan of the statistics day series -/

/-- Claim-side rule for a minimum extrema day, written from the spec's
words: the earliest calendar day of the series achieving the minimum
value (none for an empty series). -/
def specEarliestMin {α : Type} [LinearOrder α] (series : List (Int × α)) :
    Option Int :=
  match listMin (series.map Prod.snd) with
  | none => none
  | some m =>
      listMin ((series.filter (fun x => decide (x.2 = m))).map Prod.fst)

/-- Claim-side rule for a maximum extrema day: the earliest calendar day
of the series achieving the maximum value. -/
def specEarliestMax {α : Type} [LinearOrder α] (series : List (Int × α)) :
    Option Int :=
  match listMax (series.map Prod.snd) with
  | none => none
  | some m =>
      listMin ((series.filter (fun x => decide (x.2 = m))).map Prod.fst)

lemma tieMin_scan {α : Type} [LinearOrder α] (l : List (Int × α)) :
    l.foldl tieMinStep (none, ([] : List Int)) =
      (listMin (l.map Prod.snd),
       match listMin (l.map Prod.snd) with
       | none => []
       | some m => (l.filter (fun x => decide (x.2 = m))).map Prod.fst) := by
  induction l using List.reverseRecOn with
  | nil => rfl
  | append_singleton l e ih =>
    rw [List.foldl_append, ih, List.map_append, List.map_singleton, listMin_append_singleton]
    cases h : listMin (l.map Prod.snd) with
    | none =>
      have hl : l = [] := List.map_eq_nil_iff.mp (listMin_eq_none_iff.mp h)
      subst hl
      simp [tieMinStep, listMin]
    | some m =>
      have hbound : ∀ x ∈ l, m ≤ x.2 := by
        intro x hx
        exact (listMin_eq_some_iff.mp h).2 x.2 (List.mem_map_of_mem Prod.snd hx)
      rcases lt_trichotomy e.2 m with hlt | heq | hgt
      · have hmin : min m e.2 = e.2 := min_eq_right hlt.le
        have hfl : l.filter (fun x => decide (x.2 = e.2)) = [] := by
          rw [List.filter_eq_nil_iff]
          intro x hx
          simp only [decide_eq_true_eq]
          exact fun hx2 => absurd (hx2 ▸ hbound x hx) (not_le.mpr hlt)
        simp [tieMinStep, hlt, hmin, hfl, List.filter_append]
      · have hmin : min m e.2 = m := min_eq_left heq.ge
        simp [tieMinStep, heq, hmin, List.filter_append, not_lt_of_le heq.ge,
          lt_irrefl]
      · have hmin : min m e.2 = m := min_eq_left hgt.le
        simp [tieMinStep, hmin, List.filter_append, not_lt_of_le hgt.le,
          ne_of_gt hgt]

lemma tieMax_scan {α : Type} [LinearOrder α] (l : List (Int × α)) :
    l.foldl tieMaxStep (none, ([] : List Int)) =
      (listMax (l.map Prod.snd),
       match listMax (l.map Prod.snd) with
       | none => []
       | some m => (l.filter (fun x => decide (x.2 = m))).map Prod.fst) := by
  induction l using List.reverseRecOn with
  | nil => rfl
  | append_singleton l e ih =>
    rw [List.foldl_append, ih, List.map_append, List.map_singleton, listMax_append_singleton]
    cases h : listMax (l.map Prod.snd) with
    | none =>
      have hl : l = [] := List.map_eq_nil_iff.mp (listMax_eq_none_iff.mp h)
      subst hl
      simp [tieMaxStep, listMax]
    | some m =>
      have hbound : ∀ x ∈ l, x.2 ≤ m := by
        intro x hx
        exact (listMax_eq_some_iff.mp h).2 x.2 (List.mem_map_of_mem Prod.snd hx)
      rcases lt_trichotomy m e.2 with hlt | heq | hgt
      · have hmax : max m e.2 = e.2 := max_eq_right hlt.le
        have hfl : l.filter (fun x => decide (x.2 = e.2)) = [] := by
          rw [List.filter_eq_nil_iff]
          intro x hx
          simp only [decide_eq_true_eq]
          exact fun hx2 => absurd (hx2 ▸ hbound x hx) (not_le.mpr hlt)
        simp [tieMaxStep, hlt, hmax, hfl, List.filter_append]
      · have hmax : max m e.2 = m := max_eq_left heq.ge
        simp [tieMaxStep, heq.symm, hmax, List.filter_append, lt_irrefl]
      · have hmax : max m e.2 = m := max_eq_left hgt.le
        simp [tieMaxStep, hmax, List.filter_append, not_lt_of_le hgt.le,
          ne_of_lt hgt]

/-- The scan-and-min procedure of `get_statistics` computes the earliest
day achieving the minimum. -/
lemma dayMinOf_eq_spec {α : Type} [LinearOrder α] (l : List (Int × α)) :
    dayMinOf l = specEarliestMin l := by
  rw [dayMinOf, tieMin_scan, specEarliestMin]
  cases h : listMin (l.map Prod.snd) <;> rfl

/-- The scan-and-min procedure of `get_statistics` computes the earliest
day achieving the maximum. -/
lemma dayMaxOf_eq_spec {α : Type} [LinearOrder α] (l : List (Int × α)) :
    dayMaxOf l = specEarliestMax l := by
  rw [dayMaxOf, tieMax_scan, specEarliestMax]
  cases h : listMax (l.map Prod.snd) <;> rfl

/-- An optional bound: `true` (no constraint) when the query parameter is
absent, the bound's check when present. -/
def optCheck {β : Type} (o : Option β) (chk : β → Bool) : Bool :=
  match o with
  | none => true
  | some v => chk v

/-- Claim-side predicate of the list operation, written from the spec's
words: each present bound is an inclusive `>=`/`<=` comparison, absent
bounds impose no constraint, all present bounds are conjoined (a NULL
`removed_date` satisfies no bound on `removed_date`, per SQL three-valued
logic). -/
def matchesSpec (f : RollFilters) (r : Roll) : Bool :=
  optCheck f.id_start (fun v => decide (v ≤ r.id)) &&
  (optCheck f.id_end (fun v => decide (r.id ≤ v)) &&
  (optCheck f.length_start (fun v => decide (v ≤ r.length)) &&
  (optCheck f.length_end (fun v => decide (r.length ≤ v)) &&
  (optCheck f.weight_start (fun v => decide (v ≤ r.weight)) &&
  (optCheck f.weight_end (fun v => decide (r.weight ≤ v)) &&
  (optCheck f.added_start (fun v => decide (v ≤ r.added_date)) &&
  (optCheck f.added_end (fun v => decide (r.added_date ≤ v)) &&
  (optCheck f.removed_start (fun v => removedGe v r) &&
  optCheck f.removed_end (fun v => removedLe v r)))))))))

lemma optFilter_append_all {β : Type} (o : Option β) (mk : β → Roll → Bool)
    (rest : List (Roll → Bool)) (r : Roll) :
    ((optFilter o mk ++ rest).all (fun p => p r)) =
      (optCheck o (fun v => mk v r) && rest.all (fun p => p r)) := by
  cases o <;> simp [optFilter, optCheck]

lemma optFilter_all {β : Type} (o : Option β) (mk : β → Roll → Bool)
    (r : Roll) :
    ((optFilter o mk).all (fun p => p r)) = optCheck o (fun v => mk v r) := by
  cases o <;> simp [optFilter, optCheck]

lemma buildFilters_all (f : RollFilters) (r : Roll) :
    (buildFilters f).all (fun p => p r) = matchesSpec f r := by
  simp only [buildFilters, List.append_assoc, optFilter_append_all,
    optFilter_all]
  rfl

/-! ### Claim theorems -/

/-- C1: for a create request with `length <= 0` or `weight <= 0` the
validation fires before any persistence action and no row is stored, but
the response status is 500 ("Unexpected error: 400: ..."), not the
intended 400: the handler's own `except Exception` clause catches the
`HTTPException(400)` it just raised and re-wraps it. -/
theorem C1_create_validation_wrapped_to_500 :
    create_roll 0 5 1000 ⟨[], 1⟩ =
      (.error (.http 500
        "Unexpected error: 400: Length and weight must be positive"),
       ⟨[], 1⟩) ∧
    create_roll 10 (-1) 1000 ⟨[], 1⟩ =
      (.error (.http 500
        "Unexpected error: 400: Length and weight must be positive"),
       ⟨[], 1⟩) ∧
    (∀ len w now db, (len ≤ (0:ℚ) ∨ w ≤ (0:ℚ)) →
      (create_roll len w now db).2 = db) := by
  refine ⟨rfl, rfl, fun len w now db h => ?_⟩
  simp [create_roll, h]

/-- C2: deleting a missing roll and deleting an already-removed roll both
leave the store untouched and raise distinct `HTTPException`s (404 vs
400) inside the handler, but both surface as HTTP 500 because the
handler's `except Exception` clause re-wraps them; the two cases are then
distinguishable only by the detail string, not by the status code. -/
theorem C2_delete_errors_wrapped_to_500 :
    delete_roll 1 100 ⟨[], 1⟩ =
      (.error (.http 500 "Unexpected error: 404: Roll not found"),
       ⟨[], 1⟩) ∧
    delete_roll 1 200
        ⟨[{ id := 1, length := 5, weight := 7, added_date := 0,
            removed_date := some 50 }], 2⟩ =
      (.error (.http 500 "Unexpected error: 400: Roll already removed"),
       ⟨[{ id := 1, length := 5, weight := 7, added_date := 0,
           removed_date := some 50 }], 2⟩) := by
  exact ⟨rfl, rfl⟩

/-- C3: a statistics request with `start_date > end_date` is rejected
before any query runs and the state is untouched, but the response status
is 500, not 400: the `HTTPException(400)` is swallowed by the handler's
own `except Exception` clause.  With `start_date <= end_date` validation
passes and the body runs. -/
theorem C3_stats_validation_wrapped_to_500 :
    get_statistics 86400 0 ⟨[], 1⟩ =
      (.error (.http 500
        "Unexpected error: 400: Start date must be before end date"),
       ⟨[], 1⟩) ∧
    (∀ s e db, s ≤ e →
      (get_statistics s e db).1 = .ok (statisticsBody s e db)) := by
  refine ⟨rfl, fun s e db h => ?_⟩
  simp [get_statistics, wrapHandler, not_lt.mpr h]

/-- C6: the list operation returns exactly the rolls satisfying the
conjunction of the supplied inclusive range bounds; absent bounds impose
no constraint, and with no filters supplied all rows are returned. -/
theorem C6_list_filter_semantics :
    (∀ f db, (get_rolls f db).1 =
      .ok (db.rolls.filter (fun r => matchesSpec f r))) ∧
    (∀ db, (get_rolls {} db).1 = .ok db.rolls) := by
  constructor
  · intro f db
    exact congrArg Except.ok
      (List.filter_congr (fun r _ => buildFilters_all f r))
  · intro db
    have h : ∀ r : Roll,
        (buildFilters {}).all (fun p => p r) = true := fun r => rfl
    simpa [get_rolls, wrapHandler] using List.filter_congr (fun r _ => h r)

/-- C10: the list and statistics operations never modify the stored
rolls — whether validation succeeds or fails, the database state after
the call is the state before it. -/
theorem C10_list_stats_read_only :
    (∀ f db, (get_rolls f db).2 = db) ∧
    (∀ s e db, (get_statistics s e db).2 = db) := by
  refine ⟨fun f db => rfl, fun s e db => ?_⟩
  simp only [get_statistics]
  split <;> rfl

lemma mem_dayRange (a b d : Int) : d ∈ dayRange a b ↔ a ≤ d ∧ d ≤ b := by
  simp only [dayRange, List.mem_map, List.mem_range]
  constructor
  · rintro ⟨i, hi, hEq⟩
    omega
  · rintro ⟨h1, h2⟩
    exact ⟨(d - a).toNat, by omega, by omega⟩

lemma dayRange_nodup (a b : Int) : (dayRange a b).Nodup := by
  unfold dayRange
  refine List.Nodup.map ?_ (List.nodup_range _)
  intro i j h
  simp only at h
  omega

/-- The join condition of the day-series SQL, rewritten with the spec's
formula `added_date < d+1day AND (removed_date >= d OR removed_date IS
NULL)`. -/
lemma presentOnDay_eq_spec (r : Roll) (d : Int) :
    presentOnDay r d =
      (decide (r.added_date < (d + 1) * 86400) &&
        r.removed_date.elim true (fun rd => decide (d * 86400 ≤ rd))) := by
  cases h : r.removed_date <;> simp [presentOnDay, h]

/-- C4: each of the four extrema days reported by the statistics body is
the earliest day of the daily series achieving the corresponding
extremum: the left-to-right scan with tie lists followed by `min()` over
the tied days always yields the earliest tied day. -/
theorem C4_extrema_days_earliest (s e : Int) (db : DBState) :
    (statisticsBody s e db).day_min_count =
      specEarliestMin ((daySeries db.rolls (dayOf s) (dayOf e)).map
        (fun x => (x.1, x.2.1))) ∧
    (statisticsBody s e db).day_max_count =
      specEarliestMax ((daySeries db.rolls (dayOf s) (dayOf e)).map
        (fun x => (x.1, x.2.1))) ∧
    (statisticsBody s e db).day_min_weight =
      specEarliestMin ((daySeries db.rolls (dayOf s) (dayOf e)).map
        (fun x => (x.1, x.2.2))) ∧
    (statisticsBody s e db).day_max_weight =
      specEarliestMax ((daySeries db.rolls (dayOf s) (dayOf e)).map
        (fun x => (x.1, x.2.2))) := by
  refine ⟨?_, ?_, ?_, ?_⟩ <;>
    simp [statisticsBody, dayMinOf_eq_spec, dayMaxOf_eq_spec]

/-- C9: the daily time series has exactly one entry per UTC calendar day
in `[start_date, end_date]` (days derived from the input instants), in
ascending order; each entry's count is the number of rolls satisfying
`added_date < d+1day AND (removed_date >= d OR removed_date IS NULL)`
and its weight is the sum of their weights; `start_date = end_date`
yields a series of length 1. -/
theorem C9_day_series_shape (s e : Int) (db : DBState) :
    ((daySeries db.rolls (dayOf s) (dayOf e)).map Prod.fst =
      dayRange (dayOf s) (dayOf e)) ∧
    ((daySeries db.rolls (dayOf s) (dayOf e)).map Prod.fst).Nodup ∧
    (∀ d : Int,
      d ∈ (daySeries db.rolls (dayOf s) (dayOf e)).map Prod.fst ↔
        dayOf s ≤ d ∧ d ≤ dayOf e) ∧
    (∀ x ∈ daySeries db.rolls (dayOf s) (dayOf e),
      x.2.1 = (db.rolls.filter (fun r =>
        decide (r.added_date < (x.1 + 1) * 86400) &&
          r.removed_date.elim true
            (fun rd => decide (x.1 * 86400 ≤ rd)))).length ∧
      x.2.2 = ((db.rolls.filter (fun r =>
        decide (r.added_date < (x.1 + 1) * 86400) &&
          r.removed_date.elim true
            (fun rd => decide (x.1 * 86400 ≤ rd)))).map Roll.weight).sum) ∧
    (s = e → (daySeries db.rolls (dayOf s) (dayOf e)).length = 1) := by
  have hmap : (daySeries db.rolls (dayOf s) (dayOf e)).map Prod.fst =
      dayRange (dayOf s) (dayOf e) := by
    simp [daySeries, List.map_map, Function.comp_def]
  refine ⟨hmap, ?_, ?_, ?_, ?_⟩
  · rw [hmap]; exact dayRange_nodup _ _
  · intro d; rw [hmap]; exact mem_dayRange _ _ d
  · intro x hx
    simp only [daySeries, List.mem_map] at hx
    obtain ⟨d, _, rfl⟩ := hx
    have hfilter : db.rolls.filter (fun r => presentOnDay r d) =
        db.rolls.filter (fun r =>
          decide (r.added_date < (d + 1) * 86400) &&
            r.removed_date.elim true
              (fun rd => decide (d * 86400 ≤ rd))) :=
      List.filter_congr (fun r _ => presentOnDay_eq_spec r d)
    exact ⟨congrArg List.length hfilter,
      congrArg (fun l => (l.map Roll.weight).sum) hfilter⟩
  · intro h
    subst h
    simp [daySeries, dayRange]

lemma truthyRound2_some_eq_none_iff (x : ℚ) :
    truthyRound2 (some x) = none ↔ x = 0 := by
  by_cases hx : x = 0 <;> simp [truthyRound2, hx]

lemma truthyRound2_some_of_ne (x : ℚ) (hx : x ≠ 0) :
    truthyRound2 (some x) = some (pyRound2 x) := by
  simp [truthyRound2, hx]

/-- C5 counterexample: a roll removed in the same second it was added
(dwell time 0) is a removed roll of the presence set, yet both intervals
are reported as null: `interval_query.max_days` is `0.0`, which is falsy
in Python, so the `if interval_query and interval_query.max_days` guard
treats it like NULL. -/
theorem C5_zero_dwell_reported_null :
    intervalQualifies 0 86400
      { id := 1, length := 5, weight := 7, added_date := 0,
        removed_date := some 0 } = true ∧
    (statisticsBody 0 86400
      ⟨[{ id := 1, length := 5, weight := 7, added_date := 0,
          removed_date := some 0 }], 2⟩).max_interval = none ∧
    (statisticsBody 0 86400
      ⟨[{ id := 1, length := 5, weight := 7, added_date := 0,
          removed_date := some 0 }], 2⟩).min_interval = none := by
  refine ⟨rfl, ?_, ?_⟩ <;>
    · rw [show (statisticsBody 0 86400
          ⟨[{ id := 1, length := 5, weight := 7, added_date := 0,
              removed_date := some 0 }], 2⟩) =
          statisticsBody 0 86400
            ⟨[{ id := 1, length := 5, weight := 7, added_date := 0,
                removed_date := some 0 }], 2⟩ from rfl]
      norm_num [statisticsBody, truthyRound2, listMax, listMin, dwell,
        intervalQualifies, presence, List.filter]

/-- C5 (amended): over presence-set rolls that have been removed,
`max_interval`/`min_interval` are the maximum/minimum dwell duration in
fractional days rounded to 2 decimals — except that they are null not
only when no removed roll is in the presence set but also when the
corresponding extremal dwell is exactly zero (Python falsiness of
`0.0`). -/
theorem C5_intervals_amended (s e : Int) (db : DBState) :
    ((statisticsBody s e db).max_interval = none ↔
      db.rolls.filter (intervalQualifies s e) = [] ∨
        listMax ((db.rolls.filter (intervalQualifies s e)).map dwell) =
          some 0) ∧
    ((statisticsBody s e db).min_interval = none ↔
      db.rolls.filter (intervalQualifies s e) = [] ∨
        listMin ((db.rolls.filter (intervalQualifies s e)).map dwell) =
          some 0) ∧
    (∀ m : Int, m ∈ (db.rolls.filter (intervalQualifies s e)).map dwell →
      (∀ x ∈ (db.rolls.filter (intervalQualifies s e)).map dwell, x ≤ m) →
      m ≠ 0 →
      (statisticsBody s e db).max_interval =
        some (pyRound2 ((m : ℚ) / 86400))) ∧
    (∀ m : Int, m ∈ (db.rolls.filter (intervalQualifies s e)).map dwell →
      (∀ x ∈ (db.rolls.filter (intervalQualifies s e)).map dwell, m ≤ x) →
      m ≠ 0 →
      (statisticsBody s e db).min_interval =
        some (pyRound2 ((m : ℚ) / 86400))) := by
  have hmaxEq : (statisticsBody s e db).max_interval =
      truthyRound2
        ((listMax ((db.rolls.filter (intervalQualifies s e)).map dwell)).map
          (fun (v : Int) => (v : ℚ) / 86400)) := rfl
  have hminEq : (statisticsBody s e db).min_interval =
      truthyRound2
        ((listMin ((db.rolls.filter (intervalQualifies s e)).map dwell)).map
          (fun (v : Int) => (v : ℚ) / 86400)) := rfl
  refine ⟨?_, ?_, ?_, ?_⟩
  · rw [hmaxEq]
    cases h : listMax ((db.rolls.filter (intervalQualifies s e)).map dwell)
      with
    | none =>
      have hnil : db.rolls.filter (intervalQualifies s e) = [] :=
        List.map_eq_nil_iff.mp (listMax_eq_none_iff.mp h)
      simp [truthyRound2, hnil]
    | some m =>
      have hne : db.rolls.filter (intervalQualifies s e) ≠ [] := by
        intro hnil
        rw [hnil] at h
        simp [listMax] at h
      rw [Option.map_some', truthyRound2_some_eq_none_iff]
      rw [div_eq_zero_iff]
      constructor
      · rintro (hm | habs)
        · exact Or.inr (by rw [Int.cast_eq_zero] at hm; rw [hm])
        · norm_num at habs
      · rintro (hfil | hm0)
        · exact absurd hfil hne
        · injection hm0 with hm0
          exact Or.inl (by exact_mod_cast hm0)
  · rw [hminEq]
    cases h : listMin ((db.rolls.filter (intervalQualifies s e)).map dwell)
      with
    | none =>
      have hnil : db.rolls.filter (intervalQualifies s e) = [] :=
        List.map_eq_nil_iff.mp (listMin_eq_none_iff.mp h)
      simp [truthyRound2, hnil]
    | some m =>
      have hne : db.rolls.filter (intervalQualifies s e) ≠ [] := by
        intro hnil
        rw [hnil] at h
        simp [listMin] at h
      rw [Option.map_some', truthyRound2_some_eq_none_iff]
      rw [div_eq_zero_iff]
      constructor
      · rintro (hm | habs)
        · exact Or.inr (by rw [Int.cast_eq_zero] at hm; rw [hm])
        · norm_num at habs
      · rintro (hfil | hm0)
        · exact absurd hfil hne
        · injection hm0 with hm0
          exact Or.inl (by exact_mod_cast hm0)
  · intro m hm hb hm0
    rw [hmaxEq, listMax_eq_some_iff.mpr ⟨hm, hb⟩, Option.map_some']
    exact truthyRound2_some_of_ne _
      (div_ne_zero (Int.cast_ne_zero.mpr hm0) (by norm_num))
  · intro m hm hb hm0
    rw [hminEq, listMin_eq_some_iff.mpr ⟨hm, hb⟩, Option.map_some']
    exact truthyRound2_some_of_ne _
      (div_ne_zero (Int.cast_ne_zero.mpr hm0) (by norm_num))

/-- Witness for C5's amended theorem: a single roll with a dwell time of
exactly one day yields `max_interval = 1.00`. -/
theorem C5_intervals_amended_witness :
    (statisticsBody 0 172800
      ⟨[{ id := 1, length := 5, weight := 7, added_date := 0,
          removed_date := some 86400 }], 2⟩).max_interval =
      some (pyRound2 ((86400 : Int) / 86400 : ℚ)) :=
  (C5_intervals_amended 0 172800
    ⟨[{ id := 1, length := 5, weight := 7, added_date := 0,
        removed_date := some 86400 }], 2⟩).2.2.1 86400
    (by decide) (by decide) (by decide)

/-- C7 counterexample: the environment sets all four variables, yet with
an empty `config.ini` (no `database` section) the loader raises
`NoSectionError` and startup fails — `os.getenv("X", config.get(...))`
evaluates the file fallback eagerly, before the environment is even
consulted.  The claim says the loader should return the environment
values here. -/
theorem C7_env_set_missing_file_still_fails :
    List.lookup "DB_HOST" [("DB_HOST", "h"), ("DB_NAME", "n"),
      ("DB_USER", "u"), ("DB_PASSWORD", "p")] = some "h" ∧
    List.lookup "DB_NAME" [("DB_HOST", "h"), ("DB_NAME", "n"),
      ("DB_USER", "u"), ("DB_PASSWORD", "p")] = some "n" ∧
    List.lookup "DB_USER" [("DB_HOST", "h"), ("DB_NAME", "n"),
      ("DB_USER", "u"), ("DB_PASSWORD", "p")] = some "u" ∧
    List.lookup "DB_PASSWORD" [("DB_HOST", "h"), ("DB_NAME", "n"),
      ("DB_USER", "u"), ("DB_PASSWORD", "p")] = some "p" ∧
    get_db_config [("DB_HOST", "h"), ("DB_NAME", "n"),
      ("DB_USER", "u"), ("DB_PASSWORD", "p")] [] =
      .error (.noSection "database") := by
  refine ⟨?_, ?_, ?_, ?_, ?_⟩ <;> rfl

/-- C7 (amended): each key resolves to the environment value when the
variable is set, falling back to the file value otherwise; but the
configuration file is consulted eagerly for every key, so the loader
succeeds exactly when the file supplies all four keys of the `database`
section — and fails otherwise even when the environment supplies every
value. -/
theorem C7_config_precedence_amended (env : List (String × String))
    (file : IniFile) :
    ((∃ cfg, get_db_config env file = .ok cfg) ↔
      (∃ v, configGet file "database" "DB_HOST" = .ok v) ∧
      (∃ v, configGet file "database" "DB_NAME" = .ok v) ∧
      (∃ v, configGet file "database" "DB_USER" = .ok v) ∧
      (∃ v, configGet file "database" "DB_PASSWORD" = .ok v)) ∧
    (∀ cfg, get_db_config env file = .ok cfg →
      (∀ v, List.lookup "DB_HOST" env = some v → cfg.host = v) ∧
      (List.lookup "DB_HOST" env = none →
        configGet file "database" "DB_HOST" = .ok cfg.host) ∧
      (∀ v, List.lookup "DB_NAME" env = some v → cfg.database = v) ∧
      (List.lookup "DB_NAME" env = none →
        configGet file "database" "DB_NAME" = .ok cfg.database) ∧
      (∀ v, List.lookup "DB_USER" env = some v → cfg.username = v) ∧
      (List.lookup "DB_USER" env = none →
        configGet file "database" "DB_USER" = .ok cfg.username) ∧
      (∀ v, List.lookup "DB_PASSWORD" env = some v → cfg.password = v) ∧
      (List.lookup "DB_PASSWORD" env = none →
        configGet file "database" "DB_PASSWORD" = .ok cfg.password)) := by
  cases h1 : configGet file "database" "DB_HOST" with
  | error e1 =>
    refine ⟨⟨?_, ?_⟩, ?_⟩
    · rintro ⟨cfg, hcfg⟩
      simp [get_db_config, h1] at hcfg
    · rintro ⟨⟨v, hv⟩, -, -, -⟩
      cases hv
    · intro cfg hcfg
      simp [get_db_config, h1] at hcfg
  | ok v1 =>
    cases h2 : configGet file "database" "DB_NAME" with
    | error e2 =>
      refine ⟨⟨?_, ?_⟩, ?_⟩
      · rintro ⟨cfg, hcfg⟩
        simp [get_db_config, h1, h2] at hcfg
      · rintro ⟨-, ⟨v, hv⟩, -, -⟩
        cases hv
      · intro cfg hcfg
        simp [get_db_config, h1, h2] at hcfg
    | ok v2 =>
      cases h3 : configGet file "database" "DB_USER" with
      | error e3 =>
        refine ⟨⟨?_, ?_⟩, ?_⟩
        · rintro ⟨cfg, hcfg⟩
          simp [get_db_config, h1, h2, h3] at hcfg
        · rintro ⟨-, -, ⟨v, hv⟩, -⟩
          cases hv
        · intro cfg hcfg
          simp [get_db_config, h1, h2, h3] at hcfg
      | ok v3 =>
        cases h4 : configGet file "database" "DB_PASSWORD" with
        | error e4 =>
          refine ⟨⟨?_, ?_⟩, ?_⟩
          · rintro ⟨cfg, hcfg⟩
            simp [get_db_config, h1, h2, h3, h4] at hcfg
          · rintro ⟨-, -, -, ⟨v, hv⟩⟩
            cases hv
          · intro cfg hcfg
            simp [get_db_config, h1, h2, h3, h4] at hcfg
        | ok v4 =>
          have hcfgEq : get_db_config env file =
              .ok { host := getenv env "DB_HOST" v1,
                    database := getenv env "DB_NAME" v2,
                    username := getenv env "DB_USER" v3,
                    password := getenv env "DB_PASSWORD" v4 } := by
            simp [get_db_config, h1, h2, h3, h4]
          refine ⟨⟨fun _ => ⟨⟨v1, rfl⟩, ⟨v2, rfl⟩, ⟨v3, rfl⟩, ⟨v4, rfl⟩⟩,
            fun _ => ⟨_, hcfgEq⟩⟩, ?_⟩
          intro cfg hcfg
          rw [hcfgEq] at hcfg
          cases hcfg
          refine ⟨?_, ?_, ?_, ?_, ?_, ?_, ?_, ?_⟩
          · intro v hv
            simp [getenv, hv]
          · intro hv
            simp [getenv, hv, h1]
          · intro v hv
            simp [getenv, hv]
          · intro hv
            simp [getenv, hv, h2]
          · intro v hv
            simp [getenv, hv]
          · intro hv
            simp [getenv, hv, h3]
          · intro v hv
            simp [getenv, hv]
          · intro hv
            simp [getenv, hv, h4]

/-- Witness for C7's amended theorem: with a complete file section and
`DB_HOST` set in the environment, the loader succeeds. -/
theorem C7_config_precedence_amended_witness :
    ∃ cfg, get_db_config [("DB_HOST", "envhost")]
      [("database", [("DB_HOST", "fh"), ("DB_NAME", "fn"),
        ("DB_USER", "fu"), ("DB_PASSWORD", "fp")])] = .ok cfg :=
  (C7_config_precedence_amended [("DB_HOST", "envhost")]
    [("database", [("DB_HOST", "fh"), ("DB_NAME", "fn"),
      ("DB_USER", "fu"), ("DB_PASSWORD", "fp")])]).1.mpr
    ⟨⟨"fh", by rfl⟩, ⟨"fn", by rfl⟩, ⟨"fu", by rfl⟩, ⟨"fp", by rfl⟩⟩

/-- C8: once a roll's `removed_date` is non-null, none of the four
operations (create, delete, list, statistics) modifies the roll: the
removed roll is still present, unchanged, in the stored state afterward
(ids are unique, as the primary key guarantees). -/
theorem C8_soft_delete_irreversible (db : DBState)
    (hids : (db.rolls.map Roll.id).Nodup)
    (r : Roll) (hr : r ∈ db.rolls) (d : Int)
    (hd : r.removed_date = some d) :
    (∀ len w now, r ∈ (create_roll len w now db).2.rolls) ∧
    (∀ roll_id now, r ∈ (delete_roll roll_id now db).2.rolls) ∧
    (∀ f, r ∈ (get_rolls f db).2.rolls) ∧
    (∀ s e, r ∈ (get_statistics s e db).2.rolls) := by
  refine ⟨?_, ?_, ?_, ?_⟩
  · intro len w now
    by_cases h : len ≤ (0 : ℚ) ∨ w ≤ (0 : ℚ)
    · simpa [create_roll, h] using hr
    · simp only [create_roll, if_neg h]
      exact List.mem_append_left _ hr
  · intro roll_id now
    cases hfind : db.rolls.find? (fun x => x.id = roll_id) with
    | none => simpa [delete_roll, hfind] using hr
    | some found =>
      by_cases hrem : found.removed_date.isSome
      · simpa [delete_roll, hfind, hrem] using hr
      · have hfmem : found ∈ db.rolls := List.mem_of_find?_eq_some hfind
        have hfid : found.id = roll_id := by
          have := List.find?_some hfind
          simpa using this
        have hrne : ¬ r.id = roll_id := by
          intro hre
          have hrf : r = found :=
            List.inj_on_of_nodup_map hids hr hfmem (by rw [hfid, hre])
          rw [← hrf, hd] at hrem
          exact hrem rfl
        simp only [delete_roll, hfind, hrem, if_neg, Bool.false_eq_true,
          not_false_eq_true, if_false]
        exact List.mem_map.mpr ⟨r, hr, by simp [hrne]⟩
  · intro f
    exact hr
  · intro s e
    have hstate : (get_statistics s e db).2 = db := by
      simp only [get_statistics]
      split <;> rfl
    rw [hstate]
    exact hr

/-- Witness for C8: a concrete removed roll survives a delete request
targeting its id, unchanged. -/
theorem C8_soft_delete_irreversible_witness :
    ([{ id := 1, length := 5, weight := 7, added_date := 0,
        removed_date := some 8 }].map Roll.id).Nodup ∧
    { id := 1, length := 5, weight := 7, added_date := 0,
      removed_date := some 8 } ∈
      (delete_roll 1 99
        ⟨[{ id := 1, length := 5, weight := 7, added_date := 0,
            removed_date := some 8 }], 2⟩).2.rolls :=
  ⟨by decide,
   (C8_soft_delete_irreversible
     ⟨[{ id := 1, length := 5, weight := 7, added_date := 0,
         removed_date := some 8 }], 2⟩
     (by decide)
     { id := 1, length := 5, weight := 7, added_date := 0,
       removed_date := some 8 }
     (by decide) 8 rfl).2.1 1 99⟩

/-- Witness for C1's universally quantified conjunct: invalid input at a
concrete state leaves the state unchanged. -/
theorem C1_create_validation_wrapped_to_500_witness :
    ((0 : ℚ) ≤ 0 ∨ (5 : ℚ) ≤ 0) ∧ (create_roll 0 5 7 ⟨[], 1⟩).2 = ⟨[], 1⟩ :=
  ⟨Or.inl le_rfl,
   C1_create_validation_wrapped_to_500.2.2 0 5 7 ⟨[], 1⟩ (Or.inl le_rfl)⟩

/-- Witness for C3's universally quantified conjunct: a valid window at a
concrete state passes validation. -/
theorem C3_stats_validation_wrapped_to_500_witness :
    (0 : Int) ≤ 0 ∧
      (get_statistics 0 0 ⟨[], 1⟩).1 = .ok (statisticsBody 0 0 ⟨[], 1⟩) :=
  ⟨le_rfl, C3_stats_validation_wrapped_to_500.2 0 0 ⟨[], 1⟩ le_rfl⟩

/-- Witness for C9: with `start_date = end_date` the series has exactly
one entry. -/
theorem C9_day_series_shape_witness :
    (daySeries ((⟨[], 1⟩ : DBState)).rolls (dayOf 0) (dayOf 0)).length = 1 :=
  (C9_day_series_shape 0 0 ⟨[], 1⟩).2.2.2.2 rfl

end Severstal
